import Mathlib

/-!
A shallow embedding, in Lean 4, of the rendering pipeline of the
`anthropic-proxy` HTTP traffic inspector (`src/anthropic_proxy/server.py`),
together with proofs and refutations of the frozen specification claims.

Modelling conventions:
* JSON-like Python values (the results of `json.loads`) are modelled by the
  inductive type `J` below.  Python `dict`s are insertion-ordered association
  lists, exactly as CPython preserves insertion order; Python `list`s are Lean
  lists; `None`/`bool`/`int`/`str` map to the corresponding constructors.
  Floating point numbers are outside the model (no claim concerns them).
* Machine bytes are `Nat` values `< 256`; a body is a `List Nat`.
* Fallible Python code (operations that can raise `TypeError` /
  `AttributeError`) is modelled with `Except Unit`.
* `hashlib.sha256(serialized).hexdigest()` is a fixed deterministic function
  of the serialized string, so we model the fingerprint by the canonical
  serialization itself: two fingerprints of the model are equal exactly when
  the serialized forms are equal, which determines equality of the real
  hex digests (and the cache keyed by them behaves identically under the
  standard assumption that SHA-256 is collision-free on the session's data).
-/

/-- JSON-like value: the payload type produced by `json.loads` and threaded
through every component of the rendering pipeline. -/
inductive J where
  | null
  | bool (b : Bool)
  | num (n : Int)
  | str (s : String)
  | arr (xs : List J)
  | obj (kvs : List (String × J))

/-- Lowercase hexadecimal digit, as used by Python `json` escapes. -/
def hexDigit (n : Nat) : Char :=
  if n < 10 then Char.ofNat (48 + n) else Char.ofNat (87 + n)

/-- Escape of a single character performed by `json.dumps` with the default
`ensure_ascii=True`: `"` and `\` and the short control escapes, `\u00xx` for
the remaining control characters, characters above `~` as `\uxxxx`
(a surrogate pair for astral characters), everything else literally. -/
def escChar (c : Char) : List Char :=
  let n := c.toNat
  if c = Char.ofNat 34 then [Char.ofNat 92, Char.ofNat 34]
  else if c = Char.ofNat 92 then [Char.ofNat 92, Char.ofNat 92]
  else if c = Char.ofNat 10 then [Char.ofNat 92, Char.ofNat 110]
  else if c = Char.ofNat 13 then [Char.ofNat 92, Char.ofNat 114]
  else if c = Char.ofNat 9 then [Char.ofNat 92, Char.ofNat 116]
  else if n = 8 then [Char.ofNat 92, Char.ofNat 98]
  else if n = 12 then [Char.ofNat 92, Char.ofNat 102]
  else if n < 32 then [Char.ofNat 92, Char.ofNat 117, Char.ofNat 48, Char.ofNat 48, hexDigit (n / 16), hexDigit (n % 16)]
  else if n ≤ 126 then [c]
  else if n ≤ 65535 then
    [Char.ofNat 92, Char.ofNat 117, hexDigit (n / 4096 % 16), hexDigit (n / 256 % 16), hexDigit (n / 16 % 16), hexDigit (n % 16)]
  else
    let m := n - 65536
    let hi := 55296 + m / 1024
    let lo := 56320 + m % 1024
    [Char.ofNat 92, Char.ofNat 117, hexDigit (hi / 4096 % 16), hexDigit (hi / 256 % 16), hexDigit (hi / 16 % 16), hexDigit (hi % 16),
     Char.ofNat 92, Char.ofNat 117, hexDigit (lo / 4096 % 16), hexDigit (lo / 256 % 16), hexDigit (lo / 16 % 16), hexDigit (lo % 16)]

/-- `json.dumps` applied to a Python string (with `ensure_ascii=True`):
a double-quoted, escaped form. -/
def jsonDumpsStr (s : String) : String :=
  String.mk (Char.ofNat 34 :: (s.toList.foldr (fun c acc => escChar c ++ acc) [Char.ofNat 34]))

/-- Join a list of strings with a separator (`sep.join(xs)` in Python). -/
def joinSep (sep : String) : List String → String
  | [] => ""
  | [x] => x
  | x :: tl => x ++ sep ++ joinSep sep (tl)

/-- Code-point lexicographic comparison of character lists: exactly the
string comparison Python's `sorted` applies to `str` keys. -/
def charListLe : List Char → List Char → Bool
  | [], _ => true
  | _ :: _, [] => false
  | a :: as, b :: bs =>
    if a.toNat < b.toNat then true
    else if b.toNat < a.toNat then false
    else charListLe as bs

/-- Python string comparison `a <= b` (code-point lexicographic). -/
def strLeB (a b : String) : Bool :=
  charListLe a.toList b.toList

/-- Sort the (key, rendered value) pairs of a mapping by key, as
`json.dumps(..., sort_keys=True)` does.  Sorting only inspects the keys, so
sorting the pairs after rendering each value agrees with Python's sorting of
the items before rendering. -/
def sortPairs (l : List (String × String)) : List (String × String) :=
  List.insertionSort (fun a b => strLeB a.1 b.1 = true) l

mutual
/-- `json.dumps(value, sort_keys=True, ensure_ascii=True)`: the canonical
serialization hashed by `compute_hash` (server.py line 85).  Default
separators `", "` and `": "`; mapping keys sorted lexicographically. -/
def serializeCanonical : J → String
  | .null => "null"
  | .bool b => if b then "true" else "false"
  | .num n => toString n
  | .str s => jsonDumpsStr s
  | .arr xs => "[" ++ joinSep ", " (serArr xs) ++ "]"
  | .obj kvs =>
    "\x7b" ++ joinSep ", " ((sortPairs (serObj kvs)).map (fun p => jsonDumpsStr p.1 ++ ": " ++ p.2)) ++ "\x7d"

/-- Canonical serialization of the elements of a sequence, in order. -/
def serArr : List J → List String
  | [] => []
  | x :: tl => serializeCanonical x :: serArr tl

/-- Canonical serialization of the values of a mapping, pairing each key with
its rendered value (keys are sorted afterwards by `serializeCanonical`). -/
def serObj : List (String × J) → List (String × String)
  | [] => []
  | (k, v) :: tl => (k, serializeCanonical v) :: serObj tl
end

/-- `compute_hash` (server.py lines 83-86): the content fingerprint of a
JSON-like value.  The source returns
`hashlib.sha256(json.dumps(value, sort_keys=True, ensure_ascii=True).encode()).hexdigest()`;
we model the digest by the canonical serialization itself (see the header
comment: the digest is a fixed deterministic function of this string). -/
def compute_hash (value : J) : String :=
  serializeCanonical value

/-- Python `repr` of a string: quoted with a single quote (a double quote
when the content contains a single quote but no double quote), escaping the
backslash, the chosen quote, and the short control escapes; other control
characters become `\xhh`.  (Python additionally escapes non-printable
characters above `0x7f` via its printability tables; those tables are outside
the model and no claim depends on them.) -/
def pyReprStr (s : String) : String :=
  let q : Char := if s.toList.contains (Char.ofNat 39) ∧ ¬ s.toList.contains (Char.ofNat 34) then Char.ofNat 34 else Char.ofNat 39
  let esc : Char → List Char := fun c =>
    let n := c.toNat
    if c = Char.ofNat 92 then [Char.ofNat 92, Char.ofNat 92]
    else if c = q then [Char.ofNat 92, q]
    else if c = Char.ofNat 10 then [Char.ofNat 92, Char.ofNat 110]
    else if c = Char.ofNat 13 then [Char.ofNat 92, Char.ofNat 114]
    else if c = Char.ofNat 9 then [Char.ofNat 92, Char.ofNat 116]
    else if n < 32 ∨ n = 127 then [Char.ofNat 92, Char.ofNat 120, hexDigit (n / 16), hexDigit (n % 16)]
    else [c]
  String.mk (q :: (s.toList.foldr (fun c acc => esc c ++ acc) [q]))

mutual
/-- Python `repr` of a JSON-like value (the form used for values nested
inside a container when the container is converted with `str`). -/
def pyRepr : J → String
  | .null => "None"
  | .bool b => if b then "True" else "False"
  | .num n => toString n
  | .str s => pyReprStr s
  | .arr xs => "[" ++ joinSep ", " (pyReprArr xs) ++ "]"
  | .obj kvs => "\x7b" ++ joinSep ", " (pyReprObj kvs) ++ "\x7d"

/-- `repr` of the elements of a list, in order. -/
def pyReprArr : List J → List String
  | [] => []
  | x :: tl => pyRepr x :: pyReprArr tl

/-- `repr` of the entries of a dict, in order. -/
def pyReprObj : List (String × J) → List String
  | [] => []
  | (k, v) :: tl => (pyReprStr k ++ ": " ++ pyRepr v) :: pyReprObj tl
end

/-- Python `str` of a JSON-like value (also the effect of interpolating the
value into an f-string): a string is returned verbatim, any other value
falls back to `repr`. -/
def pyStr (v : J) : String :=
  match v with
  | .str s => s
  | other => pyRepr other

/-- Python `len`: defined for strings, lists and dicts; raises `TypeError`
(here: `none`) on `None`, booleans and numbers. -/
def pyLen : J → Option Nat
  | .str s => some s.length
  | .arr xs => some xs.length
  | .obj kvs => some kvs.length
  | _ => none

/-- Python slice `value[:n]`: defined for strings and lists; raises
`TypeError` (here: `none`) on a dict (slices are unhashable keys) and on
scalars. -/
def pySlice (v : J) (n : Nat) : Option J :=
  match v with
  | .str s => some (.str (String.mk (s.toList.take n)))
  | .arr xs => some (.arr (xs.take n))
  | _ => none

/-- Lookup in a Python dict modelled as an insertion-ordered association
list (`value[k]` / the membership test `k in value`).  A dict built by the
interpreter has distinct keys, so the first match is the entry. -/
def objGet (kvs : List (String × J)) (k : String) : Option J :=
  (kvs.find? (fun p => p.1 == k)).map (fun p => p.2)

/-- `k in value` for a dict. -/
def hasKey (kvs : List (String × J)) (k : String) : Bool :=
  kvs.any (fun p => p.1 == k)

/-- Python truthiness of a JSON-like value (`if value:`). -/
def truthy : J → Bool
  | .null => false
  | .bool b => b
  | .num n => n != 0
  | .str s => s != ""
  | .arr xs => !xs.isEmpty
  | .obj kvs => !kvs.isEmpty

/-- `create_preview` (server.py lines 88-117): a single-line human summary of
a value, used as the stored preview when the value is first cached.  Shape
recognizers are checked in priority order.  The branch for a mapping holding
both a `"type"` and a `"text"` key applies `len` to the text value, which
raises `TypeError` (modelled by `.error ()`) when that value is `None`, a
boolean or a number, and slices it with `text[:40]`, which raises on a dict. -/
def create_preview (value : J) (maxLength : Nat := 60) : Except Unit String :=
  match value with
  | .obj kvs =>
    if hasKey kvs "type" ∧ hasKey kvs "text" then
      let text := (objGet kvs "text").getD .null
      match pyLen text with
      | none => .error ()
      | some n =>
        if n > 40 then
          match pySlice text 40 with
          | none => .error ()
          | some t => .ok ("dict with text: \x27" ++ pyStr t ++ "...\x27")
        else .ok ("dict with text: \x27" ++ pyStr text ++ "\x27")
    else if hasKey kvs "role" ∧ hasKey kvs "content" then
      let role := (objGet kvs "role").getD .null
      let content := pyStr ((objGet kvs "content").getD .null)
      if content.length > 40 then
        .ok ("message " ++ pyStr role ++ ": \x27" ++ String.mk (content.toList.take 40) ++ "...\x27")
      else .ok ("message " ++ pyStr role ++ ": \x27" ++ content ++ "\x27")
    else if hasKey kvs "name" ∧ hasKey kvs "description" then
      .ok ("tool: " ++ pyStr ((objGet kvs "name").getD .null))
    else
      .ok ("dict with keys: " ++ joinSep ", " ((kvs.map (fun p => p.1)).take 3) ++ (if kvs.length > 3 then "..." else ""))
  | .arr xs => .ok ("array with " ++ toString xs.length ++ " items")
  | .str s =>
    if s.length > maxLength then .ok ("\x27" ++ String.mk (s.toList.take maxLength) ++ "...\x27")
    else .ok ("\x27" ++ s ++ "\x27")
  | other => .ok (pyStr other)

/-- The process-lifetime dedup cache `self.json_cache`, mapping fingerprint
to preview string.  Insertion appends at the end; the code only ever inserts
a fingerprint it has just looked up unsuccessfully. -/
abbrev Cache : Type := List (String × String)

/-- Lookup in the dedup cache (`value_hash in self.json_cache` /
`self.json_cache[value_hash]`). -/
def cacheGet (c : Cache) (k : String) : Option String :=
  (List.find? (fun p => p.1 == k) c).map (fun p => p.2)

/-- The fingerprints present in the cache. -/
def cacheKeys (c : Cache) : List String :=
  List.map (fun p => p.1) c

/-- The fixed allow-list of top-level keys exempted from caching
(server.py line 145). -/
def allowKeys : List String := ["model", "max_tokens", "stream"]

/-- Child path for a mapping entry: `f"{path}.{key}" if path else key`. -/
def childPath (path key : String) : String :=
  if path = "" then key else path ++ "." ++ key

mutual
/-- `cache_and_replace` (server.py lines 119-157): recursively collapse a
JSON-like value against the dedup cache.  Scalars pass through; a composite
value is fingerprinted; if the fingerprint is cached the whole subtree is
replaced by a marker string embedding the stored preview; otherwise the
fingerprint is inserted (with a fresh preview, whose computation can raise,
see `create_preview`) and the children are processed recursively, with
allow-listed top-level keys copied verbatim.  The Python method mutates
`self.json_cache`; here the cache is threaded explicitly. -/
def cache_and_replace (cacheJson : Bool) (value : J) (path : String) (c : Cache) : Except Unit (J × Cache) :=
  if cacheJson = false then .ok (value, c)
  else
    match value with
    | .obj kvs =>
      let h := compute_hash (.obj kvs)
      match cacheGet c h with
      | some p => .ok (.str ("... (cached: " ++ p ++ ")"), c)
      | none =>
        match create_preview (.obj kvs) with
        | .error e => .error e
        | .ok p =>
          match cacheAndReplaceObj cacheJson kvs path (c ++ [(h, p)]) with
          | .error e => .error e
          | .ok (res, c2) => .ok (.obj res, c2)
    | .arr xs =>
      let h := compute_hash (.arr xs)
      match cacheGet c h with
      | some p => .ok (.str ("... (cached: " ++ p ++ ")"), c)
      | none =>
        match create_preview (.arr xs) with
        | .error e => .error e
        | .ok p =>
          match cacheAndReplaceArr cacheJson xs 0 path (c ++ [(h, p)]) with
          | .error e => .error e
          | .ok (res, c2) => .ok (.arr res, c2)
    | scalar => .ok (scalar, c)

/-- The `for key, val in value.items()` loop of `cache_and_replace`
(server.py lines 142-149), threading the cache left to right. -/
def cacheAndReplaceObj (cacheJson : Bool) (kvs : List (String × J)) (path : String) (c : Cache) : Except Unit (List (String × J) × Cache) :=
  match kvs with
  | [] => .ok ([], c)
  | (k, v) :: tl =>
    if path = "" ∧ k ∈ allowKeys then
      match cacheAndReplaceObj cacheJson tl path c with
      | .error e => .error e
      | .ok (res, c2) => .ok ((k, v) :: res, c2)
    else
      match cache_and_replace cacheJson v (childPath path k) c with
      | .error e => .error e
      | .ok (rv, c1) =>
        match cacheAndReplaceObj cacheJson tl path c1 with
        | .error e => .error e
        | .ok (res, c2) => .ok ((k, rv) :: res, c2)

/-- The `for i, item in enumerate(value)` loop of `cache_and_replace`
(server.py lines 151-155). -/
def cacheAndReplaceArr (cacheJson : Bool) (xs : List J) (i : Nat) (path : String) (c : Cache) : Except Unit (List J × Cache) :=
  match xs with
  | [] => .ok ([], c)
  | x :: tl =>
    match cache_and_replace cacheJson x (path ++ "[" ++ toString i ++ "]") c with
    | .error e => .error e
    | .ok (rx, c1) =>
      match cacheAndReplaceArr cacheJson tl (i + 1) path c1 with
      | .error e => .error e
      | .ok (res, c2) => .ok (rx :: res, c2)
end

/-- In-place update of a dict entry (`filtered["tools"] = ...` where the key
is known to be present): the value at the first matching key is replaced,
preserving the entry's position, as CPython's dict assignment does. -/
def objSet (kvs : List (String × J)) (k : String) (v : J) : List (String × J) :=
  match kvs with
  | [] => [(k, v)]
  | (k2, v2) :: tl => if k2 == k then (k, v) :: tl else (k2, v2) :: objSet tl k v

/-- `filter_tools` (server.py lines 159-166): when `show_tools` is false and
the value is a dict containing a top-level `"tools"` key, replace that value
with the fixed placeholder string. -/
def filter_tools (showTools : Bool) (jsonObj : J) : J :=
  match jsonObj with
  | .obj kvs =>
    if showTools = false ∧ hasKey kvs "tools" then
      .obj (objSet kvs "tools" (.str "... (hidden, use --show-tools to display)"))
    else .obj kvs
  | other => other

/-- The bright-cyan marker used for text content (server.py line 17). -/
def TEXT_COLOR : String := "\x1b[96m"

/-- `colorama.Style.RESET_ALL`. -/
def RESET_ALL : String := "\x1b[0m"

/-- `"  " * indent`. -/
def indentStr (indent : Nat) : String :=
  String.mk (List.replicate (2 * indent) (Char.ofNat 32))

/-- Split a character list at newline characters (Python `s.split("\n")`). -/
def splitNl : List Char → List (List Char)
  | [] => [[]]
  | c :: r =>
    match splitNl r with
    | h :: t => if c = Char.ofNat 10 then [] :: h :: t else (c :: h) :: t
    | [] => [[c]]

mutual
/-- `format_json` (server.py lines 34-80): the recursive pretty-printer.
`inTextField` triggers the special multi-line and coloring treatment of
strings; for a mapping entry it is recomputed from the immediate key alone
(`key in ("text", "content")`), for a sequence element it is inherited. -/
def format_json (obj : J) (indent : Nat) (inTextField : Bool) : String :=
  match obj with
  | .null => "null"
  | .bool b => if b then "true" else "false"
  | .num n => toString n
  | .str s =>
    if inTextField ∧ s.toList.contains (Char.ofNat 10) then
      let lines := splitNl s.toList
      "\n" ++ TEXT_COLOR ++
        joinSep "\n" (lines.map (fun l => indentStr indent ++ "  " ++ String.mk l)) ++
        "\n" ++ indentStr indent ++ RESET_ALL
    else
      let escaped := jsonDumpsStr s
      if inTextField ∧ s.length > 20 then TEXT_COLOR ++ escaped ++ RESET_ALL
      else escaped
  | .arr xs =>
    if xs.isEmpty then "[]"
    else "[\n" ++ joinSep ",\n" (formatArrItems xs indent inTextField) ++ "\n" ++ indentStr indent ++ "]"
  | .obj kvs =>
    if kvs.isEmpty then "\x7b\x7d"
    else "\x7b\n" ++ joinSep ",\n" (formatObjItems kvs indent) ++ "\n" ++ indentStr indent ++ "\x7d"

/-- The sequence branch loop of `format_json` (lines 64-67): each element is
rendered at `indent + 1` inheriting the parent's text-field flag, prefixed by
the parent's indent string plus two spaces. -/
def formatArrItems (xs : List J) (indent : Nat) (inTextField : Bool) : List String :=
  match xs with
  | [] => []
  | x :: tl => (indentStr indent ++ "  " ++ format_json x (indent + 1) inTextField) :: formatArrItems tl indent inTextField

/-- The mapping branch loop of `format_json` (lines 72-77): the text-field
flag for each value is `key in ("text", "content")`, computed fresh from the
immediate key and never inherited from the parent. -/
def formatObjItems (kvs : List (String × J)) (indent : Nat) : List String :=
  match kvs with
  | [] => []
  | (k, v) :: tl =>
    (indentStr indent ++ "  \"" ++ k ++ "\": " ++ format_json v (indent + 1) (k == "text" || k == "content")) :: formatObjItems tl indent
end

/-- Value of a hexadecimal digit character. -/
def hexVal (c : Char) : Option Nat :=
  let n := c.toNat
  if 48 ≤ n ∧ n ≤ 57 then some (n - 48)
  else if 97 ≤ n ∧ n ≤ 102 then some (n - 87)
  else if 65 ≤ n ∧ n ≤ 70 then some (n - 55)
  else none

/-- JSON whitespace (the characters `json.loads` skips between tokens). -/
def isJsonWs (c : Char) : Bool :=
  c = Char.ofNat 32 || c = Char.ofNat 9 || c = Char.ofNat 10 || c = Char.ofNat 13

/-- Decimal digit test. -/
def isDigitCh (c : Char) : Bool :=
  48 ≤ c.toNat ∧ c.toNat ≤ 57

/-- Body of a JSON string literal after the opening quote, with JSON escape
processing (`\uXXXX` pairs of surrogates are combined; a lone surrogate,
which Python would keep as an unpaired code unit, has no Lean `Char`
counterpart and decodes to `NUL` — no claim depends on lone surrogates).
Fuel bounds the recursion; one unit per consumed character is ample. -/
def parseStrChars (fuel : Nat) (s : List Char) : Option (List Char × List Char) :=
  match fuel with
  | 0 => none
  | fuel + 1 =>
    match s with
    | [] => none
    | c :: r =>
      if c = Char.ofNat 34 then some ([], r)
      else if c = Char.ofNat 92 then
        match r with
        | e :: r2 =>
          if e = Char.ofNat 34 then (parseStrChars fuel r2).map (fun p => (Char.ofNat 34 :: p.1, p.2))
          else if e = Char.ofNat 92 then (parseStrChars fuel r2).map (fun p => (Char.ofNat 92 :: p.1, p.2))
          else if e = Char.ofNat 47 then (parseStrChars fuel r2).map (fun p => (Char.ofNat 47 :: p.1, p.2))
          else if e = Char.ofNat 98 then (parseStrChars fuel r2).map (fun p => (Char.ofNat 8 :: p.1, p.2))
          else if e = Char.ofNat 102 then (parseStrChars fuel r2).map (fun p => (Char.ofNat 12 :: p.1, p.2))
          else if e = Char.ofNat 110 then (parseStrChars fuel r2).map (fun p => (Char.ofNat 10 :: p.1, p.2))
          else if e = Char.ofNat 114 then (parseStrChars fuel r2).map (fun p => (Char.ofNat 13 :: p.1, p.2))
          else if e = Char.ofNat 116 then (parseStrChars fuel r2).map (fun p => (Char.ofNat 9 :: p.1, p.2))
          else if e = Char.ofNat 117 then
            match r2 with
            | a :: b :: c2 :: d :: r3 =>
              match hexVal a, hexVal b, hexVal c2, hexVal d with
              | some ha, some hb, some hc, some hd =>
                let code := ha * 4096 + hb * 256 + hc * 16 + hd
                if 55296 ≤ code ∧ code ≤ 56319 then
                  match r3 with
                  | e2 :: u2 :: a2 :: b2 :: c3 :: d2 :: r4 =>
                    if e2 = Char.ofNat 92 ∧ u2 = Char.ofNat 117 then
                      match hexVal a2, hexVal b2, hexVal c3, hexVal d2 with
                      | some ha2, some hb2, some hc2, some hd2 =>
                        let code2 := ha2 * 4096 + hb2 * 256 + hc2 * 16 + hd2
                        if 56320 ≤ code2 ∧ code2 ≤ 57343 then
                          let cp := 65536 + (code - 55296) * 1024 + (code2 - 56320)
                          (parseStrChars fuel r4).map (fun p => (Char.ofNat cp :: p.1, p.2))
                        else (parseStrChars fuel r3).map (fun p => (Char.ofNat code :: p.1, p.2))
                      | _, _, _, _ => (parseStrChars fuel r3).map (fun p => (Char.ofNat code :: p.1, p.2))
                    else (parseStrChars fuel r3).map (fun p => (Char.ofNat code :: p.1, p.2))
                  | _ => (parseStrChars fuel r3).map (fun p => (Char.ofNat code :: p.1, p.2))
                else (parseStrChars fuel r3).map (fun p => (Char.ofNat code :: p.1, p.2))
              | _, _, _, _ => none
            | _ => none
          else none
        | [] => none
      else if c.toNat < 32 then none
      else (parseStrChars fuel r).map (fun p => (c :: p.1, p.2))

/-- JSON integer literal (an optional minus sign, then `0` or a nonzero
digit followed by digits).  A fraction or exponent would make a Python
float, which is outside the model; such numbers make the model's
`jsonLoads` reject the document (see the header comment). -/
def parseIntLit (s : List Char) : Option (Int × List Char) :=
  let core : List Char → Option (Nat × List Char) := fun t =>
    match t with
    | c :: r =>
      if c = Char.ofNat 48 then some (0, r)
      else if isDigitCh c then
        let digits := r.takeWhile isDigitCh
        let rest := r.dropWhile isDigitCh
        some ((c :: digits).foldl (fun acc d => acc * 10 + (d.toNat - 48)) 0, rest)
      else none
    | [] => none
  match s with
  | c :: r =>
    if c = Char.ofNat 45 then
      (core r).map (fun p => (-(p.1 : Int), p.2))
    else (core s).map (fun p => ((p.1 : Int), p.2))
  | [] => none

/-- Dict assignment semantics used while parsing an object: an existing key
is updated in place (keeping its position, last value wins), a new key is
appended — exactly CPython's duplicate-key handling in `json.loads`. -/
def dictInsert (kvs : List (String × J)) (k : String) (v : J) : List (String × J) :=
  match kvs with
  | [] => [(k, v)]
  | (k2, v2) :: tl => if k2 == k then (k, v) :: tl else (k2, v2) :: dictInsert tl k v

mutual
/-- One JSON value, returning the unconsumed remainder.  Models `json.loads`
up to the exclusions documented in the header (floats, `NaN`/`Infinity`). -/
def parseVal (fuel : Nat) (s : List Char) : Option (J × List Char) :=
  match fuel with
  | 0 => none
  | fuel + 1 =>
    match s.dropWhile isJsonWs with
    | [] => none
    | c :: r =>
      if c = Char.ofNat 34 then
        (parseStrChars (r.length + 1) r).map (fun p => (.str (String.mk p.1), p.2))
      else if c = Char.ofNat 91 then
        match (r.dropWhile isJsonWs) with
        | c2 :: r2 =>
          if c2 = Char.ofNat 93 then some (.arr [], r2)
          else parseArrElems fuel (r.dropWhile isJsonWs) []
        | [] => none
      else if c = Char.ofNat 123 then
        match (r.dropWhile isJsonWs) with
        | c2 :: r2 =>
          if c2 = Char.ofNat 125 then some (.obj [], r2)
          else parseObjEntries fuel (r.dropWhile isJsonWs) []
        | [] => none
      else
        match s.dropWhile isJsonWs with
        | t =>
          if c = Char.ofNat 110 then
            match t with
            | _ :: u :: l1 :: l2 :: rest =>
              if u = Char.ofNat 117 ∧ l1 = Char.ofNat 108 ∧ l2 = Char.ofNat 108 then some (.null, rest) else none
            | _ => none
          else if c = Char.ofNat 116 then
            match t with
            | _ :: r1 :: u :: e :: rest =>
              if r1 = Char.ofNat 114 ∧ u = Char.ofNat 117 ∧ e = Char.ofNat 101 then some (.bool true, rest) else none
            | _ => none
          else if c = Char.ofNat 102 then
            match t with
            | _ :: a :: l1 :: s1 :: e :: rest =>
              if a = Char.ofNat 97 ∧ l1 = Char.ofNat 108 ∧ s1 = Char.ofNat 115 ∧ e = Char.ofNat 101 then some (.bool false, rest) else none
            | _ => none
          else if c = Char.ofNat 45 ∨ isDigitCh c then
            match parseIntLit t with
            | some (n, rest) =>
              match rest with
              | d :: _ =>
                if d = Char.ofNat 46 ∨ d = Char.ofNat 101 ∨ d = Char.ofNat 69 then none
                else some (.num n, rest)
              | [] => some (.num n, rest)
            | none => none
          else none

/-- Comma-separated array elements, after the opening bracket (the first
element begins at the given position). -/
def parseArrElems (fuel : Nat) (s : List Char) (acc : List J) : Option (J × List Char) :=
  match fuel with
  | 0 => none
  | fuel + 1 =>
    match parseVal fuel s with
    | none => none
    | some (v, rest) =>
      match rest.dropWhile isJsonWs with
      | c :: r2 =>
        if c = Char.ofNat 44 then parseArrElems fuel r2 (acc ++ [v])
        else if c = Char.ofNat 93 then some (.arr (acc ++ [v]), r2)
        else none
      | [] => none

/-- Comma-separated object entries, after the opening brace (the first key
begins at the given position). -/
def parseObjEntries (fuel : Nat) (s : List Char) (acc : List (String × J)) : Option (J × List Char) :=
  match fuel with
  | 0 => none
  | fuel + 1 =>
    match s.dropWhile isJsonWs with
    | c :: r =>
      if c = Char.ofNat 34 then
        match parseStrChars (r.length + 1) r with
        | none => none
        | some (kcs, r2) =>
          match r2.dropWhile isJsonWs with
          | c2 :: r3 =>
            if c2 = Char.ofNat 58 then
              match parseVal fuel r3 with
              | none => none
              | some (v, r4) =>
                let acc2 := dictInsert acc (String.mk kcs) v
                match r4.dropWhile isJsonWs with
                | c3 :: r5 =>
                  if c3 = Char.ofNat 44 then parseObjEntries fuel r5 acc2
                  else if c3 = Char.ofNat 125 then some (.obj acc2, r5)
                  else none
                | [] => none
            else none
          | [] => none
      else none
    | [] => none
end

/-- `json.loads` on a text document: parse exactly one JSON value with only
whitespace around it, or fail (`json.JSONDecodeError`, modelled by `none`).
The fuel is ample for any input of this length. -/
def jsonLoads (s : String) : Option J :=
  let cs := s.toList
  match parseVal (4 * cs.length + 8) cs with
  | some (v, rest) => if (rest.dropWhile isJsonWs).isEmpty then some v else none
  | none => none

/-- Whitespace stripped by Python `str.strip()` (ASCII part; the exotic
Unicode whitespace code points also stripped by Python do not occur in any
claim). -/
def pyIsSpace (c : Char) : Bool :=
  c = Char.ofNat 32 || c = Char.ofNat 9 || c = Char.ofNat 10 || c = Char.ofNat 13 || c = Char.ofNat 11 || c = Char.ofNat 12

/-- `str.strip()` on a character list. -/
def pyStripChars (cs : List Char) : List Char :=
  ((cs.dropWhile pyIsSpace).reverse.dropWhile pyIsSpace).reverse

/-- `str.strip()`. -/
def pyStrip (s : String) : String :=
  String.mk (pyStripChars s.toList)

/-- `l.startswith(marker)` on character lists. -/
def listStartsWith : List Char → List Char → Bool
  | _, [] => true
  | [], _ :: _ => false
  | c :: r, p :: ps => c = p && listStartsWith r ps

/-- An event record of the stream condenser: `{'event': name, 'data': payload}`
with `data` initially `None` (server.py line 179).  A payload parsed from a
`data:` line whose JSON is the literal `null` is the Python value `None`,
which behaves identically to our `some J.null` in every use below
(falsy, not a dict, `.get` raises). -/
abbrev Event := String × Option J

/-- Payload attached by a `data:` line: the JSON decoding of the line's
remainder, falling back to the raw text on decode failure
(server.py lines 182-185). -/
def parseDataPayload (s : String) : J :=
  (jsonLoads s).getD (.str s)

/-- The line loop of `parse_streaming_response` (server.py lines 175-188):
an `event:` line flushes the current record and opens a new one; a `data:`
line attaches a payload to the open record (and is dropped when no record is
open); the final record is flushed at end of input. -/
def splitEvents : List (List Char) → Option Event → List Event
  | [], cur => match cur with | some e => [e] | none => []
  | line :: rest, cur =>
    if listStartsWith line ("event: ".toList) then
      (match cur with | some e => [e] | none => []) ++
        splitEvents rest (some (String.mk (pyStripChars (line.drop 7)), none))
    else if listStartsWith line ("data: ".toList) then
      match cur with
      | some (name, _) => splitEvents rest (some (name, some (parseDataPayload (String.mk (pyStripChars (line.drop 6))))))
      | none => splitEvents rest none
    else splitEvents rest cur

/-- `value == "lit"` in Python for a JSON-like value: true exactly for the
equal string (a number or boolean never equals a string). -/
def jEqStr (v : J) (lit : String) : Bool :=
  match v with
  | .str t => t == lit
  | _ => false

/-- `kvs.get(k, dflt)` on a dict's entries. -/
def objGetD (kvs : List (String × J)) (k : String) (dflt : J) : J :=
  (objGet kvs k).getD dflt

/-- `value.get(k, dflt)`: defined on a dict, raises `AttributeError`
(`.error ()`) on any other value — including `None` and a raw string
payload. -/
def pyGetD (v : J) (k : String) (dflt : J) : Except Unit J :=
  match v with
  | .obj kvs => .ok (objGetD kvs k dflt)
  | _ => .error ()

/-- The text-delta extraction loop (server.py lines 191-198).  The guard
checks the event name, payload truthiness, that the payload is a dict, and
its `"type"`; then `delta = data.get('delta', {})` followed by
`delta.get('type')`, which raises when the delta value is not a dict. -/
def extractDeltas : List Event → Except Unit (List J)
  | [] => .ok []
  | (name, data) :: rest =>
    match data with
    | some (.obj kvs) =>
      if name == "content_block_delta" && truthy (.obj kvs) && jEqStr (objGetD kvs "type" .null) "content_block_delta" then
        match objGetD kvs "delta" (.obj []) with
        | .obj dkvs =>
          if jEqStr (objGetD dkvs "type" .null) "text_delta" then
            (extractDeltas rest).map (fun l => objGetD dkvs "text" (.str "") :: l)
          else extractDeltas rest
        | _ => .error ()
      else extractDeltas rest
    | _ => extractDeltas rest

/-- `''.join(parts)`: every element must be a string, otherwise `TypeError`. -/
def joinPyStrs : List J → Except Unit String
  | [] => .ok ""
  | .str s :: tl => (joinPyStrs tl).map (fun t => s ++ t)
  | _ => .error ()

/-- The `message_start` summary section (server.py lines 205-212): first
`message_start` event with a truthy payload; `data.get('message', {})` and
the nested `get`s raise when the receiver is not a dict. -/
def msgStartSection (events : List Event) : Except Unit (List String) :=
  match events.find? (fun e => e.1 == "message_start" && (match e.2 with | some d => truthy d | none => false)) with
  | some (_, some d) => do
    let md ← pyGetD d "message" (.obj [])
    let model ← pyGetD md "model" .null
    let mid ← pyGetD md "id" .null
    let l1 := "  - message_start: model=" ++ pyStr model ++ ", id=" ++ pyStr mid
    let usage ← pyGetD md "usage" (.obj [])
    if truthy usage then do
      let it ← pyGetD usage "input_tokens" .null
      let ot ← pyGetD usage "output_tokens" .null
      pure [l1, "    usage: input_tokens=" ++ pyStr it ++ ", output_tokens=" ++ pyStr ot]
    else pure [l1]
  | _ => .ok []

/-- The `content_block_start` summary section (server.py lines 215-218):
note that, unlike the other sections, the payload is dereferenced with
`event['data'].get('index', 0)` without any truthiness or type guard, so a
missing payload (`None`) or a non-dict payload raises `AttributeError`. -/
def cbStartSection (events : List Event) : Except Unit (List String) :=
  match events.find? (fun e => e.1 == "content_block_start") with
  | some (_, data) =>
    match data with
    | none => .error ()
    | some d => (pyGetD d "index" (.num 0)).map (fun idx => ["  - content_block_start: index=" ++ pyStr idx])
  | none => .ok []

/-- The `content_block_stop` presence line (server.py lines 226-229). -/
def cbStopSection (events : List Event) : List String :=
  match events.find? (fun e => e.1 == "content_block_stop") with
  | some _ => ["  - content_block_stop"]
  | none => []

/-- The `message_delta` summary section (server.py lines 232-239). -/
def msgDeltaSection (events : List Event) : Except Unit (List String) :=
  match events.find? (fun e => e.1 == "message_delta" && (match e.2 with | some d => truthy d | none => false)) with
  | some (_, some d) => do
    let delta ← pyGetD d "delta" (.obj [])
    let sr ← pyGetD delta "stop_reason" .null
    let l1 := "  - message_delta: stop_reason=" ++ pyStr sr
    let usage ← pyGetD d "usage" (.obj [])
    if truthy usage then do
      let ot ← pyGetD usage "output_tokens" .null
      pure [l1, "    usage: output_tokens=" ++ pyStr ot]
    else pure [l1]
  | _ => .ok []

/-- The `message_stop` presence line (server.py lines 242-245). -/
def msgStopSection (events : List Event) : List String :=
  match events.find? (fun e => e.1 == "message_stop") with
  | some _ => ["  - message_stop"]
  | none => []

/-- `parse_streaming_response` (server.py lines 168-247): strip and split the
body, build the event records, extract the text deltas, then emit the fixed,
ordered summary.  Any of the `AttributeError`/`TypeError` possibilities noted
on the sections surfaces as `.error ()` (the Python exception propagates out
of the method). -/
def parse_streaming_response (bodyText : String) : Except Unit String := do
  let lines := splitNl (pyStripChars bodyText.toList)
  let events := splitEvents lines none
  let deltas ← extractDeltas events
  let s1 ← msgStartSection events
  let s2 ← cbStartSection events
  let sDelta ←
    if deltas.isEmpty then pure ([] : List String)
    else (joinPyStrs deltas).map (fun m => ["  - content_block_delta (merged): \"" ++ m ++ "\""])
  let s4 ← msgDeltaSection events
  pure (joinSep "\n" ("Streaming response events:" :: (s1 ++ s2 ++ sDelta ++ cbStopSection events ++ s4 ++ msgStopSection events)))

/-- Continuation byte test for UTF-8. -/
def isCont (b : Nat) : Bool :=
  128 ≤ b ∧ b ≤ 191

/-- Strict UTF-8 decoding of a byte sequence (`bytes.decode('utf-8')`):
`none` models `UnicodeDecodeError`.  Overlong encodings, surrogates and
values above U+10FFFF are rejected, as CPython's strict decoder does. -/
def utf8DecodeChars : List Nat → Option (List Char)
  | [] => some []
  | b :: r =>
    if b < 128 then (utf8DecodeChars r).map (fun cs => Char.ofNat b :: cs)
    else if 194 ≤ b ∧ b ≤ 223 then
      match r with
      | b2 :: r2 =>
        if isCont b2 then (utf8DecodeChars r2).map (fun cs => Char.ofNat ((b - 192) * 64 + (b2 - 128)) :: cs)
        else none
      | [] => none
    else if 224 ≤ b ∧ b ≤ 239 then
      match r with
      | b2 :: b3 :: r3 =>
        let lo2 := if b = 224 then 160 else 128
        let hi2 := if b = 237 then 159 else 191
        if (lo2 ≤ b2 ∧ b2 ≤ hi2) ∧ isCont b3 then
          (utf8DecodeChars r3).map (fun cs => Char.ofNat ((b - 224) * 4096 + (b2 - 128) * 64 + (b3 - 128)) :: cs)
        else none
      | _ => none
    else if 240 ≤ b ∧ b ≤ 244 then
      match r with
      | b2 :: b3 :: b4 :: r4 =>
        let lo2 := if b = 240 then 144 else 128
        let hi2 := if b = 244 then 143 else 191
        if (lo2 ≤ b2 ∧ b2 ≤ hi2) ∧ isCont b3 ∧ isCont b4 then
          (utf8DecodeChars r4).map (fun cs => Char.ofNat ((b - 240) * 262144 + (b2 - 128) * 4096 + (b3 - 128) * 64 + (b4 - 128)) :: cs)
        else none
      | _ => none
    else none

/-- `bytes.decode('utf-8')` producing a string. -/
def utf8Decode (bs : List Nat) : Option String :=
  (utf8DecodeChars bs).map String.mk

/-- UTF-8 encoding of one character (modelling helper, used to build the
concrete byte bodies appearing in witnesses and counterexamples). -/
def utf8EncodeChar (c : Char) : List Nat :=
  let n := c.toNat
  if n < 128 then [n]
  else if n < 2048 then [192 + n / 64, 128 + n % 64]
  else if n < 65536 then [224 + n / 4096, 128 + n / 64 % 64, 128 + n % 64]
  else [240 + n / 262144, 128 + n / 4096 % 64, 128 + n / 64 % 64, 128 + n % 64]

/-- UTF-8 encoding of a string (modelling helper). -/
def utf8Encode (s : String) : List Nat :=
  s.toList.foldr (fun c acc => utf8EncodeChar c ++ acc) []

/-- The body-printing section of `print_request` (server.py lines 263-280),
as the list of strings passed to `print` (terminal coloring around them is a
presentation concern) paired with the updated cache.  An empty body prints
nothing; undecodable bytes print a byte-count placeholder; text that is not
JSON is printed raw; JSON is collapsed against the cache, then tool-filtered,
then rendered.  A `TypeError` escaping `cache_and_replace` propagates
(`.error`). -/
def print_request_body (showTools cacheJson : Bool) (c : Cache) (body : List Nat) : Except Unit (List String × Cache) :=
  if body.isEmpty then .ok ([], c)
  else
    let header := "\n\x1b[36mBody (" ++ toString body.length ++ " bytes):"
    match utf8Decode body with
    | none => .ok ([header, "  [Binary data: " ++ toString body.length ++ " bytes]"], c)
    | some bodyText =>
      match jsonLoads bodyText with
      | none => .ok ([header, bodyText], c)
      | some jsonBody =>
        match cache_and_replace cacheJson jsonBody "" c with
        | .error e => .error e
        | .ok (cachedBody, c2) => .ok ([header, format_json (filter_tools showTools cachedBody) 0 false], c2)

/-- The body-printing section of `print_response` (server.py lines 297-320):
identical to the request side except that a decoded body whose stripped text
starts with `event: ` is condensed as a streaming response instead of being
JSON-parsed. -/
def print_response_body (showTools cacheJson : Bool) (c : Cache) (body : List Nat) : Except Unit (List String × Cache) :=
  if body.isEmpty then .ok ([], c)
  else
    let header := "\n\x1b[36mBody (" ++ toString body.length ++ " bytes):"
    match utf8Decode body with
    | none => .ok ([header, "  [Binary data: " ++ toString body.length ++ " bytes]"], c)
    | some bodyText =>
      if listStartsWith (pyStripChars bodyText.toList) ("event: ".toList) then
        match parse_streaming_response bodyText with
        | .error e => .error e
        | .ok condensed => .ok ([header, condensed], c)
      else
        match jsonLoads bodyText with
        | none => .ok ([header, bodyText], c)
        | some jsonBody =>
          match cache_and_replace cacheJson jsonBody "" c with
          | .error e => .error e
          | .ok (cachedBody, c2) => .ok ([header, format_json (filter_tools showTools cachedBody) 0 false], c2)

/-- A fingerprint is absent from the cache exactly when lookup fails. -/
theorem cacheGet_eq_none_iff (c : Cache) (h : String) : cacheGet c h = none ↔ h ∉ cacheKeys c := by
  simp only [cacheGet, cacheKeys, Option.map_eq_none', List.find?_eq_none, beq_iff_eq,
    List.mem_map, not_exists]
  aesop

/-- Lookup distributes over append, preferring the left part. -/
theorem cacheGet_append (c d : Cache) (h : String) :
    cacheGet (c ++ d) h = ((cacheGet c h).rec (cacheGet d h) (fun p => some p) : Option String) := by
  induction c with
  | nil => simp [cacheGet]
  | cons p tl ih =>
    by_cases hp : p.1 == h
    · simp [cacheGet, List.find?, hp]
    · simpa [cacheGet, List.find?, hp] using ih

/-- A successful lookup survives appending entries. -/
theorem cacheGet_append_of_some {c : Cache} {h p} (hs : cacheGet c h = some p) (d : Cache) :
    cacheGet (c ++ d) h = some p := by
  rw [cacheGet_append, hs]

/-- The keys of an extended cache. -/
theorem cacheKeys_append (c d : Cache) : cacheKeys (c ++ d) = cacheKeys c ++ cacheKeys d := by
  simp [cacheKeys]

/-- Unfolding of the collapser on a scalar: scalars pass through untouched. -/
theorem car_scalar_eq (cj : Bool) (path : String) (c : Cache) :
    (cache_and_replace cj .null path c = .ok (.null, c)) ∧
    (∀ b, cache_and_replace cj (.bool b) path c = .ok (.bool b, c)) ∧
    (∀ n, cache_and_replace cj (.num n) path c = .ok (.num n, c)) ∧
    (∀ s, cache_and_replace cj (.str s) path c = .ok (.str s, c)) := by
  cases cj <;> exact ⟨rfl, fun _ => rfl, fun _ => rfl, fun _ => rfl⟩

/-- Unfolding of the collapser on a mapping (with caching enabled). -/
theorem car_obj_eq (kvs : List (String × J)) (path : String) (c : Cache) :
    cache_and_replace true (.obj kvs) path c =
      (match cacheGet c (compute_hash (.obj kvs)) with
      | some p => .ok (.str ("... (cached: " ++ p ++ ")"), c)
      | none =>
        match create_preview (.obj kvs) with
        | .error e => .error e
        | .ok p =>
          match cacheAndReplaceObj true kvs path (c ++ [(compute_hash (.obj kvs), p)]) with
          | .error e => .error e
          | .ok (res, c2) => .ok (.obj res, c2)) := rfl

/-- Unfolding of the collapser on a sequence (with caching enabled). -/
theorem car_arr_eq (xs : List J) (path : String) (c : Cache) :
    cache_and_replace true (.arr xs) path c =
      (match cacheGet c (compute_hash (.arr xs)) with
      | some p => .ok (.str ("... (cached: " ++ p ++ ")"), c)
      | none =>
        match create_preview (.arr xs) with
        | .error e => .error e
        | .ok p =>
          match cacheAndReplaceArr true xs 0 path (c ++ [(compute_hash (.arr xs), p)]) with
          | .error e => .error e
          | .ok (res, c2) => .ok (.arr res, c2)) := rfl

/-- Unfolding of the mapping loop on the empty list. -/
theorem carObj_nil_eq (cj : Bool) (path : String) (c : Cache) :
    cacheAndReplaceObj cj [] path c = .ok ([], c) := rfl

/-- Unfolding of the mapping loop on a head entry. -/
theorem carObj_cons_eq (cj : Bool) (k : String) (v : J) (tl : List (String × J)) (path : String) (c : Cache) :
    cacheAndReplaceObj cj ((k, v) :: tl) path c =
      (if path = "" ∧ k ∈ allowKeys then
        match cacheAndReplaceObj cj tl path c with
        | .error e => .error e
        | .ok (res, c2) => .ok ((k, v) :: res, c2)
      else
        match cache_and_replace cj v (childPath path k) c with
        | .error e => .error e
        | .ok (rv, c1) =>
          match cacheAndReplaceObj cj tl path c1 with
          | .error e => .error e
          | .ok (res, c2) => .ok ((k, rv) :: res, c2)) := rfl

/-- Unfolding of the sequence loop on the empty list. -/
theorem carArr_nil_eq (cj : Bool) (i : Nat) (path : String) (c : Cache) :
    cacheAndReplaceArr cj [] i path c = .ok ([], c) := rfl

/-- Unfolding of the sequence loop on a head element. -/
theorem carArr_cons_eq (cj : Bool) (x : J) (tl : List J) (i : Nat) (path : String) (c : Cache) :
    cacheAndReplaceArr cj (x :: tl) i path c =
      (match cache_and_replace cj x (path ++ "[" ++ toString i ++ "]") c with
      | .error e => .error e
      | .ok (rx, c1) =>
        match cacheAndReplaceArr cj tl (i + 1) path c1 with
        | .error e => .error e
        | .ok (res, c2) => .ok (rx :: res, c2)) := rfl


mutual
/-- A successful collapse only ever extends the cache (entries are appended,
never removed or overwritten). -/
theorem car_ext (cj : Bool) (v : J) (path : String) (c : Cache) (r : J) (c2 : Cache)
    (hc : cache_and_replace cj v path c = .ok (r, c2)) : ∃ d, c2 = c ++ d := by
  cases cj with
  | false => cases v <;> exact ⟨[], by cases hc; simp⟩
  | true =>
    cases v with
    | null => exact ⟨[], by cases hc; simp⟩
    | bool b => exact ⟨[], by cases hc; simp⟩
    | num n => exact ⟨[], by cases hc; simp⟩
    | str s => exact ⟨[], by cases hc; simp⟩
    | obj kvs =>
      rw [car_obj_eq] at hc
      split at hc
      · cases hc
        exact ⟨[], by simp⟩
      · split at hc
        · cases hc
        · split at hc
          · cases hc
          · rename_i res2 c2x hrec
            cases hc
            obtain ⟨d, hd⟩ := carObj_ext _ _ _ _ _ _ hrec
            exact ⟨_, by rw [hd, List.append_assoc]⟩
    | arr xs =>
      rw [car_arr_eq] at hc
      split at hc
      · cases hc
        exact ⟨[], by simp⟩
      · split at hc
        · cases hc
        · split at hc
          · cases hc
          · rename_i res2 c2x hrec
            cases hc
            obtain ⟨d, hd⟩ := carArr_ext _ _ _ _ _ _ _ hrec
            exact ⟨_, by rw [hd, List.append_assoc]⟩

/-- The mapping loop only ever extends the cache. -/
theorem carObj_ext (cj : Bool) (kvs : List (String × J)) (path : String) (c : Cache)
    (res : List (String × J)) (c2 : Cache)
    (hc : cacheAndReplaceObj cj kvs path c = .ok (res, c2)) : ∃ d, c2 = c ++ d := by
  cases kvs with
  | nil => exact ⟨[], by cases hc; simp⟩
  | cons hd tl =>
    obtain ⟨k, v⟩ := hd
    rw [carObj_cons_eq] at hc
    split at hc
    · split at hc
      · cases hc
      · rename_i res2 c2x hrec
        cases hc
        exact carObj_ext _ _ _ _ _ _ hrec
    · split at hc
      · cases hc
      · rename_i rv c1 hv
        split at hc
        · cases hc
        · rename_i res2 c2x hrec
          cases hc
          obtain ⟨d1, hd1⟩ := car_ext _ _ _ _ _ _ hv
          obtain ⟨d2, hd2⟩ := carObj_ext _ _ _ _ _ _ hrec
          exact ⟨d1 ++ d2, by rw [hd2, hd1, List.append_assoc]⟩

/-- The sequence loop only ever extends the cache. -/
theorem carArr_ext (cj : Bool) (xs : List J) (i : Nat) (path : String) (c : Cache)
    (res : List J) (c2 : Cache)
    (hc : cacheAndReplaceArr cj xs i path c = .ok (res, c2)) : ∃ d, c2 = c ++ d := by
  cases xs with
  | nil => exact ⟨[], by cases hc; simp⟩
  | cons x tl =>
    rw [carArr_cons_eq] at hc
    split at hc
    · cases hc
    · rename_i rx c1 hx
      split at hc
      · cases hc
      · rename_i res2 c2x hrec
        cases hc
        obtain ⟨d1, hd1⟩ := car_ext _ _ _ _ _ _ hx
        obtain ⟨d2, hd2⟩ := carArr_ext _ _ _ _ _ _ _ hrec
        exact ⟨d1 ++ d2, by rw [hd2, hd1, List.append_assoc]⟩
end

/-- The serialized entries of a mapping are the entries with serialized
values. -/
theorem serObj_eq_map (kvs : List (String × J)) :
    serObj kvs = kvs.map (fun p => (p.1, serializeCanonical p.2)) := by
  induction kvs with
  | nil => rfl
  | cons hd tl ih => obtain ⟨k, v⟩ := hd; simpa [serObj] using ih

/-- Totality of the code-point comparison. -/
theorem charListLe_total : ∀ a b : List Char, charListLe a b = true ∨ charListLe b a = true := by
  intro a
  induction a with
  | nil => intro b; left; rfl
  | cons x as ih =>
    intro b
    cases b with
    | nil => right; rfl
    | cons y bs =>
      by_cases h1 : x.toNat < y.toNat
      · left; simp [charListLe, h1]
      · by_cases h2 : y.toNat < x.toNat
        · right; simp [charListLe, h2]
        · rcases ih bs with h | h
          · left; simp [charListLe, h1, h2, h]
          · right; simp [charListLe, h1, h2, h]

/-- Transitivity of the code-point comparison. -/
theorem charListLe_trans : ∀ a b c : List Char,
    charListLe a b = true → charListLe b c = true → charListLe a c = true := by
  intro a
  induction a with
  | nil => intro b c _ _; rfl
  | cons x as ih =>
    intro b c hab hbc
    cases b with
    | nil => cases hab
    | cons y bs =>
      cases c with
      | nil => cases hbc
      | cons z cs =>
        simp only [charListLe] at hab hbc ⊢
        by_cases hxy : x.toNat < y.toNat
        · by_cases hyz : y.toNat < z.toNat
          · have hxz : x.toNat < z.toNat := Nat.lt_trans hxy hyz
            simp [hxz]
          · by_cases hzy : z.toNat < y.toNat
            · rw [if_neg hyz, if_pos hzy] at hbc; cases hbc
            · have hxz : x.toNat < z.toNat := by omega
              simp [hxz]
        · by_cases hyx : y.toNat < x.toNat
          · rw [if_neg hxy, if_pos hyx] at hab; cases hab
          · rw [if_neg hxy, if_neg hyx] at hab
            by_cases hyz : y.toNat < z.toNat
            · have hxz : x.toNat < z.toNat := by omega
              simp [hxz]
            · by_cases hzy : z.toNat < y.toNat
              · rw [if_neg hyz, if_pos hzy] at hbc; cases hbc
              · rw [if_neg hyz, if_neg hzy] at hbc
                have hxz : ¬ x.toNat < z.toNat := by omega
                have hzx : ¬ z.toNat < x.toNat := by omega
                rw [if_neg hxz, if_neg hzx]
                exact ih bs cs hab hbc

/-- Antisymmetry of the code-point comparison. -/
theorem charListLe_antisymm : ∀ a b : List Char,
    charListLe a b = true → charListLe b a = true → a = b := by
  intro a
  induction a with
  | nil =>
    intro b _ hba
    cases b with
    | nil => rfl
    | cons y bs => cases hba
  | cons x as ih =>
    intro b hab hba
    cases b with
    | nil => cases hab
    | cons y bs =>
      simp only [charListLe] at hab hba
      by_cases hxy : x.toNat < y.toNat
      · simp [hxy, show ¬ y.toNat < x.toNat by omega] at hba
      · by_cases hyx : y.toNat < x.toNat
        · simp [hxy, hyx] at hab
        · have hx : x = y := by
            have h1 : x.toNat = x.val.toNat := rfl
            have h2 : y.toNat = y.val.toNat := rfl
            exact Char.eq_of_val_eq (UInt32.ext (by omega))
          simp [hxy, hyx] at hab hba
          rw [hx, ih bs hab hba]

/-- Antisymmetry at the string level. -/
theorem strLeB_antisymm {a b : String} (hab : strLeB a b = true) (hba : strLeB b a = true) :
    a = b := by
  have h := charListLe_antisymm a.toList b.toList hab hba
  calc a = String.mk a.toList := rfl
    _ = String.mk b.toList := by rw [h]
    _ = b := rfl

/-- Key-sorting is insensitive to the original order of a duplicate-free
pair list: any two permutations of the same entries sort identically. -/
theorem sortPairs_perm_eq (l1 l2 : List (String × String))
    (hperm : l1.Perm l2) (hnd : (l1.map Prod.fst).Nodup) :
    sortPairs l1 = sortPairs l2 := by
  haveI htot : IsTotal (String × String) (fun a b => strLeB a.1 b.1 = true) :=
    ⟨fun a b => charListLe_total a.1.toList b.1.toList⟩
  haveI htrans : IsTrans (String × String) (fun a b => strLeB a.1 b.1 = true) :=
    ⟨fun a b c hab hbc => charListLe_trans a.1.toList b.1.toList c.1.toList hab hbc⟩
  haveI hanti : IsAntisymm (String × String) (fun a b => strLeB a.1 b.1 = true ∧ a.1 ≠ b.1) :=
    ⟨fun a b h1 h2 => absurd (strLeB_antisymm h1.1 h2.1) h1.2⟩
  have hp1 : (sortPairs l1).Perm l1 := List.perm_insertionSort _ l1
  have hp2 : (sortPairs l2).Perm l2 := List.perm_insertionSort _ l2
  have hps : (sortPairs l1).Perm (sortPairs l2) := hp1.trans (hperm.trans hp2.symm)
  have hs1 : List.Sorted (fun a b : String × String => strLeB a.1 b.1 = true) (sortPairs l1) :=
    List.sorted_insertionSort _ l1
  have hs2 : List.Sorted (fun a b : String × String => strLeB a.1 b.1 = true) (sortPairs l2) :=
    List.sorted_insertionSort _ l2
  have hnd1 : ((sortPairs l1).map Prod.fst).Nodup := (hnd.perm (hp1.map Prod.fst).symm)
  have hnd2 : ((sortPairs l2).map Prod.fst).Nodup :=
    hnd1.perm (hps.map Prod.fst)
  have hne1 : (sortPairs l1).Pairwise (fun a b => a.1 ≠ b.1) := by
    rw [List.Nodup, List.pairwise_map] at hnd1
    exact hnd1
  have hne2 : (sortPairs l2).Pairwise (fun a b => a.1 ≠ b.1) := by
    rw [List.Nodup, List.pairwise_map] at hnd2
    exact hnd2
  exact List.eq_of_perm_of_sorted hps (hs1.and hne1) (hs2.and hne2)

/-- C4. `compute_hash` is a deterministic function of the value, and mapping
keys are canonically sorted before hashing: two mappings holding the same
entries in different insertion orders (with the interpreter-guaranteed
duplicate-free keys) receive equal fingerprints.  Totality of the model
shows that hard-to-represent string content still fingerprints (the witness
evaluates it on non-ASCII content). -/
theorem claim_C4 (kvs1 kvs2 : List (String × J))
    (hperm : kvs1.Perm kvs2) (hnd : (kvs1.map Prod.fst).Nodup) :
    compute_hash (.obj kvs1) = compute_hash (.obj kvs2) := by
  have hser : sortPairs (serObj kvs1) = sortPairs (serObj kvs2) := by
    apply sortPairs_perm_eq
    · rw [serObj_eq_map, serObj_eq_map]
      exact hperm.map _
    · rw [serObj_eq_map, List.map_map]
      simpa using hnd
  show "\x7b" ++ joinSep ", " ((sortPairs (serObj kvs1)).map (fun p => jsonDumpsStr p.1 ++ ": " ++ p.2)) ++ "\x7d" =
    "\x7b" ++ joinSep ", " ((sortPairs (serObj kvs2)).map (fun p => jsonDumpsStr p.1 ++ ": " ++ p.2)) ++ "\x7d"
  rw [hser]

/-- Witness for C4 at a concrete pair of reordered mappings with non-ASCII
string content. -/
theorem claim_C4_witness :
    compute_hash (.obj [("b", .str "héé"), ("a", .num 1)]) =
      compute_hash (.obj [("a", .num 1), ("b", .str "héé")]) :=
  claim_C4 _ _ (List.Perm.swap ("a", J.num 1) ("b", J.str "héé") []) (by decide)

/-- C7. In `format_json` the text-field flag for a mapping entry's value is
computed fresh from the immediate key alone and never inherited: rendering a
mapping is independent of the incoming flag (first conjunct), and a string
under a `"text"` key containing a line break is emitted with each line on
its own indented line, unescaped (second conjunct, the spec's concrete
example). -/
theorem claim_C7 :
    (∀ (kvs : List (String × J)) (indent : Nat) (b1 b2 : Bool),
      format_json (.obj kvs) indent b1 = format_json (.obj kvs) indent b2) ∧
    format_json (.obj [("text", .str "line1\nline2")]) 0 false =
      "\x7b\n  \"text\": \n\x1b[96m    line1\n    line2\n  \x1b[0m\n\x7d" :=
  ⟨fun _ _ _ _ => rfl, rfl⟩

/-- The concrete streaming body of the spec's stream-condensing example:
`message_start` (model "m1", id "msg_1"), two `content_block_delta` events
with text deltas "Hel" and "lo", and a `message_stop`. -/
def c8Body : String :=
  "event: message_start\ndata: \x7b\"type\": \"message_start\", \"message\": \x7b\"id\": \"msg_1\", \"model\": \"m1\"\x7d\x7d\n\n" ++
  "event: content_block_delta\ndata: \x7b\"type\": \"content_block_delta\", \"index\": 0, \"delta\": \x7b\"type\": \"text_delta\", \"text\": \"Hel\"\x7d\x7d\n\n" ++
  "event: content_block_delta\ndata: \x7b\"type\": \"content_block_delta\", \"index\": 0, \"delta\": \x7b\"type\": \"text_delta\", \"text\": \"lo\"\x7d\x7d\n\n" ++
  "event: message_stop\ndata: \x7b\"type\": \"message_stop\"\x7d\n"

set_option maxRecDepth 100000 in
/-- C8. On the spec's concrete example the condenser emits, in this order:
the header line, one `message_start` summary line mentioning "m1" and
"msg_1", a single merged delta line containing exactly "Hello" (one line for
the two contributing delta events), and a `message_stop` line. -/
theorem claim_C8 :
    parse_streaming_response c8Body =
      .ok ("Streaming response events:\n  - message_start: model=m1, id=msg_1\n  - content_block_delta (merged): \"Hello\"\n  - message_stop") :=
  rfl

/-- C2 (refutation): on the body consisting of the single line
`event: content_block_start` — an event-name line with no data line at
all — the condenser dereferences `event['data'].get('index', 0)` with
`event['data']` still `None` and raises `AttributeError` instead of
returning a summary (server.py line 217 has no payload guard, unlike the
guarded `message_start`/`message_delta` sections). -/
theorem claim_C2_failing : parse_streaming_response "event: content_block_start" = .error () :=
  rfl

/-- A successful dict lookup implies key membership. -/
theorem objGet_some_hasKey {kvs : List (String × J)} {k : String} {t : J}
    (h : objGet kvs k = some t) : hasKey kvs k = true := by
  induction kvs with
  | nil => cases h
  | cons hd tl ih =>
    obtain ⟨k2, v⟩ := hd
    by_cases hk : (k2 == k)
    · simp [hasKey, hk]
    · simp only [objGet, List.find?_cons, hk] at h
      simp only [hasKey, List.any_cons, hk, Bool.false_or]
      exact ih h

/-- C10. `create_preview` is not total: a mapping containing both a `"type"`
key and a `"text"` key whose value is `None`, a boolean or a number makes
the `len(text)` call raise `TypeError`, and therefore `cache_and_replace`
raises on first sight of such a mapping (its fingerprint not yet cached)
instead of returning. -/
theorem claim_C10 (kvs : List (String × J)) (t : J)
    (htype : hasKey kvs "type" = true) (htext : objGet kvs "text" = some t)
    (hscalar : t = .null ∨ (∃ b, t = .bool b) ∨ (∃ n, t = .num n)) :
    create_preview (.obj kvs) = .error () ∧
    ∀ (path : String) (c : Cache), compute_hash (.obj kvs) ∉ cacheKeys c →
      cache_and_replace true (.obj kvs) path c = .error () := by
  have hhk : hasKey kvs "text" = true := objGet_some_hasKey htext
  have hlen : pyLen ((objGet kvs "text").getD .null) = none := by
    rw [htext]
    rcases hscalar with h | ⟨b, h⟩ | ⟨n, h⟩ <;> subst h <;> rfl
  have hprev : create_preview (.obj kvs) = .error () := by
    unfold create_preview
    simp only [htype, hhk, hlen, and_self, if_true]
  refine ⟨hprev, fun path c hnot => ?_⟩
  rw [car_obj_eq, (cacheGet_eq_none_iff c _).mpr hnot, hprev]

/-- Witness for C10: the mapping `{"type": "t", "text": null}`. -/
theorem claim_C10_witness :
    create_preview (.obj [("type", .str "t"), ("text", .null)]) = .error () ∧
    cache_and_replace true (.obj [("type", .str "t"), ("text", .null)]) "" [] = .error () := by
  have h := claim_C10 [("type", .str "t"), ("text", .null)] .null rfl rfl (Or.inl rfl)
  exact ⟨h.1, h.2 "" [] (by simp [cacheKeys])⟩

/-- Composite test (`isinstance(value, (dict, list))`). -/
def isComposite : J → Bool
  | .obj _ => true
  | .arr _ => true
  | _ => false

/-- Two values are composites of the same kind (both mappings or both
sequences). -/
def sameKind : J → J → Bool
  | .obj _, .obj _ => true
  | .arr _, .arr _ => true
  | _, _ => false

/-- A fresh insertion is visible to lookup. -/
theorem cacheGet_insert_self {c : Cache} {h : String} (hnone : cacheGet c h = none) (p : String) :
    cacheGet (c ++ [(h, p)]) h = some p := by
  rw [cacheGet_append, hnone]
  simp [cacheGet, List.find?]

/-- C3 (amended: assuming the collapse returns normally, i.e. no preview
`TypeError`).  Starting from a cache not containing the fingerprint of a
composite value, a successful collapse treats it as new — the returned value
is a composite of the same kind — and stores exactly the preview of the
first occurrence; an immediate second collapse of an identical value (at any
path) returns the string marker embedding that stored preview and leaves the
cache unmodified (and does not recurse: the marker replaces the whole
subtree). -/
theorem claim_C3 (v : J) (path path2 : String) (c : Cache) (r : J) (c2 : Cache)
    (hcomp : isComposite v = true)
    (hnot : compute_hash v ∉ cacheKeys c)
    (hc : cache_and_replace true v path c = .ok (r, c2)) :
    sameKind v r = true ∧
    ∃ p, create_preview v = .ok p ∧
      cacheGet c2 (compute_hash v) = some p ∧
      cache_and_replace true v path2 c2 = .ok (.str ("... (cached: " ++ p ++ ")"), c2) := by
  have hnone : cacheGet c (compute_hash v) = none := (cacheGet_eq_none_iff c _).mpr hnot
  cases v with
  | null => cases hcomp
  | bool b => cases hcomp
  | num n => cases hcomp
  | str s => cases hcomp
  | obj kvs =>
    rw [car_obj_eq] at hc
    split at hc
    · rename_i p hp
      rw [hnone] at hp; cases hp
    · split at hc
      · cases hc
      · rename_i p hp
        split at hc
        · cases hc
        · rename_i res c2x hrec
          cases hc
          obtain ⟨d, hd⟩ := carObj_ext _ _ _ _ _ _ hrec
          have hget : cacheGet c2 (compute_hash (J.obj kvs)) = some p := by
            rw [hd]
            exact cacheGet_append_of_some (cacheGet_insert_self hnone p) d
          refine ⟨rfl, p, hp, hget, ?_⟩
          rw [car_obj_eq, hget]
  | arr xs =>
    rw [car_arr_eq] at hc
    split at hc
    · rename_i p hp
      rw [hnone] at hp; cases hp
    · split at hc
      · cases hc
      · rename_i p hp
        split at hc
        · cases hc
        · rename_i res c2x hrec
          cases hc
          obtain ⟨d, hd⟩ := carArr_ext _ _ _ _ _ _ _ hrec
          have hget : cacheGet c2 (compute_hash (J.arr xs)) = some p := by
            rw [hd]
            exact cacheGet_append_of_some (cacheGet_insert_self hnone p) d
          refine ⟨rfl, p, hp, hget, ?_⟩
          rw [car_arr_eq, hget]

/-- Witness for C3 at the concrete mapping `{"z": 1}` collapsed from the
empty cache, then collapsed again against the resulting cache. -/
theorem claim_C3_witness :
    sameKind (J.obj [("z", J.num 1)]) (J.obj [("z", J.num 1)]) = true ∧
    ∃ p, create_preview (J.obj [("z", J.num 1)]) = .ok p ∧
      cacheGet [("\x7b\"z\": 1\x7d", "dict with keys: z")] (compute_hash (J.obj [("z", J.num 1)])) = some p ∧
      cache_and_replace true (J.obj [("z", J.num 1)]) "q" [("\x7b\"z\": 1\x7d", "dict with keys: z")] =
        .ok (.str ("... (cached: " ++ p ++ ")"), [("\x7b\"z\": 1\x7d", "dict with keys: z")]) :=
  claim_C3 (J.obj [("z", J.num 1)]) "p" "q" [] (J.obj [("z", J.num 1)])
    [("\x7b\"z\": 1\x7d", "dict with keys: z")] rfl (by simp [cacheKeys]) rfl

/-- A successful lookup implies key membership. -/
theorem cacheGet_some_mem {c : Cache} {h p} (hs : cacheGet c h = some p) : h ∈ cacheKeys c := by
  by_contra hnot
  rw [(cacheGet_eq_none_iff c h).mpr hnot] at hs
  cases hs

/-- A successful collapse of a composite value leaves its fingerprint in the
resulting cache: either it was already present (marker branch) or it has
just been inserted (new branch). -/
theorem car_inserts (v : J) (path : String) (c : Cache) (r : J) (c2 : Cache)
    (hcomp : isComposite v = true)
    (hc : cache_and_replace true v path c = .ok (r, c2)) :
    compute_hash v ∈ cacheKeys c2 := by
  cases v with
  | null => cases hcomp
  | bool b => cases hcomp
  | num n => cases hcomp
  | str s => cases hcomp
  | obj kvs =>
    rw [car_obj_eq] at hc
    split at hc
    · rename_i p hp
      cases hc
      exact cacheGet_some_mem hp
    · split at hc
      · cases hc
      · rename_i p hp
        split at hc
        · cases hc
        · rename_i res c2x hrec
          cases hc
          obtain ⟨d, hd⟩ := carObj_ext _ _ _ _ _ _ hrec
          rw [hd, cacheKeys_append, cacheKeys_append]
          simp [cacheKeys]
  | arr xs =>
    rw [car_arr_eq] at hc
    split at hc
    · rename_i p hp
      cases hc
      exact cacheGet_some_mem hp
    · split at hc
      · cases hc
      · rename_i p hp
        split at hc
        · cases hc
        · rename_i res c2x hrec
          cases hc
          obtain ⟨d, hd⟩ := carArr_ext _ _ _ _ _ _ _ hrec
          rw [hd, cacheKeys_append, cacheKeys_append]
          simp [cacheKeys]

/-- Every non-allow-listed composite entry value processed by the mapping
loop ends up fingerprinted in the resulting cache. -/
theorem carObj_child_mem (kvs : List (String × J)) (path : String) (c : Cache)
    (res : List (String × J)) (c2 : Cache)
    (hc : cacheAndReplaceObj true kvs path c = .ok (res, c2))
    (k : String) (v : J) (hmem : (k, v) ∈ kvs)
    (hallow : ¬(path = "" ∧ k ∈ allowKeys)) (hcomp : isComposite v = true) :
    compute_hash v ∈ cacheKeys c2 := by
  induction kvs generalizing c res with
  | nil => cases hmem
  | cons hd tl ih =>
    obtain ⟨k2, w⟩ := hd
    rw [carObj_cons_eq] at hc
    split at hc
    · rename_i hcond
      split at hc
      · cases hc
      · rename_i res2 c2x hrec
        cases hc
        rcases List.mem_cons.mp hmem with heq | htl
        · cases heq
          exact absurd hcond hallow
        · exact ih _ _ hrec htl
    · split at hc
      · cases hc
      · rename_i rw2 c1 hv
        split at hc
        · cases hc
        · rename_i res2 c2x hrec
          cases hc
          rcases List.mem_cons.mp hmem with heq | htl
          · cases heq
            have hmem1 : compute_hash v ∈ cacheKeys c1 := car_inserts _ _ _ _ _ hcomp hv
            obtain ⟨d, hd⟩ := carObj_ext _ _ _ _ _ _ hrec
            rw [hd, cacheKeys_append]
            exact List.mem_append_left _ hmem1
          · exact ih _ _ hrec htl

/-- C1 (amended): the placeholder replacement happens after the
collapse/fingerprint step, not before it.  When show-tools is false and a
body parses as JSON with a top-level `"tools"` key holding a composite value,
a successful collapse of the (not-yet-cached) body inserts the fingerprint
of the tools value into the DedupCache; `filter_tools` is applied only to
the collapsed result (server.py lines 271-273, "after caching"). -/
theorem claim_C1_amended (c : Cache) (kvs : List (String × J)) (v : J) (r : J) (c2 : Cache)
    (hmem : ("tools", v) ∈ kvs) (hcomp : isComposite v = true)
    (hnot : compute_hash (.obj kvs) ∉ cacheKeys c)
    (hc : cache_and_replace true (.obj kvs) "" c = .ok (r, c2)) :
    compute_hash v ∈ cacheKeys c2 := by
  have hnone : cacheGet c (compute_hash (.obj kvs)) = none := (cacheGet_eq_none_iff c _).mpr hnot
  rw [car_obj_eq] at hc
  split at hc
  · rename_i p hp
    rw [hnone] at hp; cases hp
  · split at hc
    · cases hc
    · rename_i p hp
      split at hc
      · cases hc
      · rename_i res c2x hrec
        cases hc
        exact carObj_child_mem _ _ _ _ _ hrec "tools" v hmem (by simp [allowKeys]) hcomp

/-- Witness for the amended C1 at the concrete body
`{"tools": [{"a": 1}], "x": 2}` collapsed from the empty cache. -/
theorem claim_C1_witness :
    compute_hash (J.arr [J.obj [("a", J.num 1)]]) ∈ cacheKeys
      [("\x7b\"tools\": [\x7b\"a\": 1\x7d], \"x\": 2\x7d", "dict with keys: tools, x"),
       ("[\x7b\"a\": 1\x7d]", "array with 1 items"),
       ("\x7b\"a\": 1\x7d", "dict with keys: a")] :=
  claim_C1_amended [] [("tools", J.arr [J.obj [("a", J.num 1)]]), ("x", J.num 2)]
    (J.arr [J.obj [("a", J.num 1)]]) _ _ (List.mem_cons_self _ _) rfl (by simp [cacheKeys]) rfl

/-- The concrete request body `{"tools": [{"a": 1}], "x": 2}` as bytes. -/
def c1Body : List Nat := utf8Encode "\x7b\"tools\": [\x7b\"a\": 1\x7d], \"x\": 2\x7d"

set_option maxRecDepth 100000 in
/-- C1 (refutation of the claim as stated): printing the request body
`{"tools": [{"a": 1}], "x": 2}` with show-tools false and an empty cache
leaves the fingerprint of the original tools value `[{"a": 1}]` in the
DedupCache — the replacement does not happen before fingerprinting. -/
theorem claim_C1_counterexample :
    (match print_request_body false true [] c1Body with
     | .ok (_, c2) => (cacheGet c2 (compute_hash (J.arr [J.obj [("a", J.num 1)]]))).isSome
     | .error _ => false) = true :=
  rfl

/-- C3 (refutation of the claim as stated): the composite mapping
`{"type": "t", "text": 5}`, whose fingerprint is absent from the empty
cache, makes the collapser raise `TypeError` (via `create_preview`, see C10)
instead of reporting it as new and returning a composite of the same kind. -/
theorem claim_C3_counterexample :
    isComposite (J.obj [("type", J.str "t"), ("text", J.num 5)]) = true ∧
    cache_and_replace true (J.obj [("type", J.str "t"), ("text", J.num 5)]) "p" [] = .error () :=
  ⟨rfl, rfl⟩

/-- Allow-listed entries keep their position and exact value through the
mapping loop. -/
theorem carObj_allow_get (kvs : List (String × J)) (path : String) (c : Cache)
    (res : List (String × J)) (c2 : Cache)
    (hc : cacheAndReplaceObj true kvs path c = .ok (res, c2)) :
    ∀ (i : Nat) (k : String) (v : J), kvs[i]? = some (k, v) → path = "" ∧ k ∈ allowKeys →
      res[i]? = some (k, v) := by
  induction kvs generalizing c res with
  | nil => intro i k v hi _; rw [List.getElem?_nil] at hi; cases hi
  | cons hd tl ih =>
    obtain ⟨k2, w⟩ := hd
    rw [carObj_cons_eq] at hc
    intro i k v hi hallow
    split at hc
    · rename_i hcond
      split at hc
      · cases hc
      · rename_i res2 c2x hrec
        cases hc
        cases i with
        | zero =>
          rw [List.getElem?_cons_zero] at hi ⊢
          exact hi
        | succ j =>
          rw [List.getElem?_cons_succ] at hi ⊢
          exact ih _ _ hrec j k v hi hallow
    · rename_i hcond
      split at hc
      · cases hc
      · rename_i rv c1 hv
        split at hc
        · cases hc
        · rename_i res2 c2x hrec
          cases hc
          cases i with
          | zero =>
            rw [List.getElem?_cons_zero] at hi
            cases hi
            exact absurd hallow hcond
          | succ j =>
            rw [List.getElem?_cons_succ] at hi ⊢
            exact ih _ _ hrec j k v hi hallow

/-- C6.  When a body whose top level is a mapping (not itself already
cached) is successfully collapsed, every allow-listed top-level entry is
copied through verbatim, at its position, whatever its value (first
conjunct); and collapsing a one-entry mapping under an allow-listed key
inserts exactly the top-level fingerprint into the cache and returns the
mapping unchanged — the value, composite or not, already seen elsewhere or
not, is never recursed into, never fingerprinted, never replaced by a
back-reference (second conjunct: the cache delta is exactly the one
top-level entry, for an arbitrary value and an arbitrary prior cache). -/
theorem claim_C6 :
    (∀ (kvs : List (String × J)) (c : Cache) (r : J) (c2 : Cache),
      compute_hash (.obj kvs) ∉ cacheKeys c →
      cache_and_replace true (.obj kvs) "" c = .ok (r, c2) →
      ∃ res, r = .obj res ∧
        ∀ (i : Nat) (k : String) (v : J), kvs[i]? = some (k, v) → k ∈ allowKeys →
          res[i]? = some (k, v)) ∧
    (∀ (k : String) (v : J) (c : Cache), k ∈ allowKeys →
      compute_hash (.obj [(k, v)]) ∉ cacheKeys c →
      cache_and_replace true (.obj [(k, v)]) "" c =
        .ok (.obj [(k, v)], c ++ [(compute_hash (.obj [(k, v)]), "dict with keys: " ++ k)])) := by
  constructor
  · intro kvs c r c2 hnot hc
    have hnone : cacheGet c (compute_hash (.obj kvs)) = none := (cacheGet_eq_none_iff c _).mpr hnot
    rw [car_obj_eq] at hc
    split at hc
    · rename_i p hp
      rw [hnone] at hp; cases hp
    · split at hc
      · cases hc
      · rename_i p hp
        split at hc
        · cases hc
        · rename_i res c2x hrec
          cases hc
          exact ⟨res, rfl, fun i k v hi hk => carObj_allow_get _ _ _ _ _ hrec i k v hi ⟨rfl, hk⟩⟩
  · intro k v c hk hnot
    have hnone : cacheGet c (compute_hash (.obj [(k, v)])) = none := (cacheGet_eq_none_iff c _).mpr hnot
    rcases (show k = "model" ∨ k = "max_tokens" ∨ k = "stream" by simpa [allowKeys] using hk) with h | h | h <;>
      subst h <;> rw [car_obj_eq, hnone] <;> rfl

/-- Witness for C6: the allow-listed key `"model"` holding the composite
value `{"z": 1}`, which is already cached (seen elsewhere), is still copied
verbatim and the cache gains only the top-level entry. -/
theorem claim_C6_witness :
    (∃ res, (J.obj [("model", J.num 1)] : J) = .obj res ∧
      ∀ (i : Nat) (k : String) (v : J),
        ([(("model" : String), J.num 1)])[i]? = some (k, v) → k ∈ allowKeys →
          res[i]? = some (k, v)) ∧
    cache_and_replace true (J.obj [("model", J.obj [("z", J.num 1)])]) ""
        [("\x7b\"z\": 1\x7d", "dict with keys: z")] =
      .ok (.obj [("model", J.obj [("z", J.num 1)])],
        [("\x7b\"z\": 1\x7d", "dict with keys: z")] ++
          [(compute_hash (J.obj [("model", J.obj [("z", J.num 1)])]), "dict with keys: " ++ "model")]) :=
  ⟨(claim_C6.1 [("model", J.num 1)] [] (J.obj [("model", J.num 1)])
      [("\x7b\"model\": 1\x7d", "dict with keys: model")] (by simp [cacheKeys]) rfl).elim
      (fun res hres => ⟨res, hres.1, hres.2⟩),
    claim_C6.2 "model" (J.obj [("z", J.num 1)])
      [("\x7b\"z\": 1\x7d", "dict with keys: z")] (by simp [allowKeys]) (by decide)⟩

/-- C9.  For a nonempty body: if the bytes decode to text that does not
parse as JSON, both the request printer and (when the text is not detected
as a streaming body) the response printer print the raw decoded text
unmodified after the byte-count header, return normally, and leave the
cache untouched; if the bytes do not decode, both print the byte-count
placeholder line instead, equally without error. -/
theorem claim_C9 (st cj : Bool) (c : Cache) (body : List Nat) (hne : body ≠ []) :
    (∀ text, utf8Decode body = some text → jsonLoads text = none →
      print_request_body st cj c body =
        .ok (["\n\x1b[36mBody (" ++ toString body.length ++ " bytes):", text], c) ∧
      (listStartsWith (pyStripChars text.toList) ("event: ".toList) = false →
        print_response_body st cj c body =
          .ok (["\n\x1b[36mBody (" ++ toString body.length ++ " bytes):", text], c))) ∧
    (utf8Decode body = none →
      print_request_body st cj c body =
        .ok (["\n\x1b[36mBody (" ++ toString body.length ++ " bytes):",
          "  [Binary data: " ++ toString body.length ++ " bytes]"], c) ∧
      print_response_body st cj c body =
        .ok (["\n\x1b[36mBody (" ++ toString body.length ++ " bytes):",
          "  [Binary data: " ++ toString body.length ++ " bytes]"], c)) := by
  have hbe : body.isEmpty = false := by
    cases body with
    | nil => exact absurd rfl hne
    | cons b tl => rfl
  constructor
  · intro text hdec hjson
    constructor
    · simp [print_request_body, hbe, hdec, hjson]
    · intro hstream
      simp at hstream
      simp [print_response_body, hbe, hdec, hjson, hstream]
  · intro hdec
    constructor
    · simp [print_request_body, hbe, hdec]
    · simp [print_response_body, hbe, hdec]

set_option maxRecDepth 100000 in
/-- Witness for C9: the undecodable single byte 255, and the decodable
non-JSON body "not json {" (not streaming-shaped), through both printers. -/
theorem claim_C9_witness :
    print_request_body false true [] (utf8Encode "not json \x7b") =
      .ok (["\n\x1b[36mBody (10 bytes):", "not json \x7b"], []) ∧
    print_response_body false true [] (utf8Encode "not json \x7b") =
      .ok (["\n\x1b[36mBody (10 bytes):", "not json \x7b"], []) ∧
    print_request_body false true [] [255] =
      .ok (["\n\x1b[36mBody (1 bytes):", "  [Binary data: 1 bytes]"], []) ∧
    print_response_body false true [] [255] =
      .ok (["\n\x1b[36mBody (1 bytes):", "  [Binary data: 1 bytes]"], []) := by
  have h1 := (claim_C9 false true [] (utf8Encode "not json \x7b") (by decide)).1
    "not json \x7b" rfl rfl
  have h2 := (claim_C9 false true [] [255] (by decide)).2 rfl
  exact ⟨h1.1, h1.2 rfl, h2.1, h2.2⟩

mutual
/-- The fingerprints inserted, in traversal order, by a from-scratch collapse
of a value at a given path (mirrors `cache_and_replace`: the composite's own
fingerprint, then the children's, skipping allow-listed top-level keys). -/
def travHashes : J → String → List String
  | .obj kvs, path => compute_hash (.obj kvs) :: travHashesObj kvs path
  | .arr xs, path => compute_hash (.arr xs) :: travHashesArr xs 0 path
  | _, _ => []

/-- Traversal fingerprints of a mapping's entries. -/
def travHashesObj : List (String × J) → String → List String
  | [], _ => []
  | (k, v) :: tl, path =>
    (if path = "" ∧ k ∈ allowKeys then [] else travHashes v (childPath path k)) ++ travHashesObj tl path

/-- Traversal fingerprints of a sequence's elements. -/
def travHashesArr : List J → Nat → String → List String
  | [], _, _ => []
  | x :: tl, i, path => travHashes x (path ++ "[" ++ toString i ++ "]") ++ travHashesArr tl (i + 1) path
end

mutual
/-- The fingerprints of all composite substructures of a value (the value
itself included), in pre-order — allow-listed keys are not skipped here.
Two composite substructures are equal (as Python values) exactly when their
canonical serializations, i.e. their fingerprints, coincide. -/
def allHashes : J → List String
  | .obj kvs => compute_hash (.obj kvs) :: allHashesObj kvs
  | .arr xs => compute_hash (.arr xs) :: allHashesArr xs
  | _ => []

/-- Fingerprints of the composite substructures under a mapping's entries. -/
def allHashesObj : List (String × J) → List String
  | [] => []
  | (_, v) :: tl => allHashes v ++ allHashesObj tl

/-- Fingerprints of the composite substructures under a sequence's elements. -/
def allHashesArr : List J → List String
  | [] => []
  | x :: tl => allHashes x ++ allHashesArr tl
end

mutual
/-- The traversal fingerprints are a sublist of all substructure
fingerprints (the traversal only skips allow-listed subtrees). -/
theorem trav_sublist : ∀ (v : J) (path : String), (travHashes v path).Sublist (allHashes v)
  | .null, _ => List.Sublist.refl _
  | .bool _, _ => List.Sublist.refl _
  | .num _, _ => List.Sublist.refl _
  | .str _, _ => List.Sublist.refl _
  | .obj kvs, path => List.Sublist.cons₂ _ (travObj_sublist kvs path)
  | .arr xs, path => List.Sublist.cons₂ _ (travArr_sublist xs 0 path)

/-- Entry-wise sublist property for mappings. -/
theorem travObj_sublist : ∀ (kvs : List (String × J)) (path : String),
    (travHashesObj kvs path).Sublist (allHashesObj kvs)
  | [], _ => List.Sublist.refl _
  | (k, v) :: tl, path => by
    show ((if path = "" ∧ k ∈ allowKeys then [] else travHashes v (childPath path k)) ++
        travHashesObj tl path).Sublist (allHashes v ++ allHashesObj tl)
    by_cases hcond : path = "" ∧ k ∈ allowKeys
    · rw [if_pos hcond]
      exact List.Sublist.append (List.nil_sublist _) (travObj_sublist tl path)
    · rw [if_neg hcond]
      exact List.Sublist.append (trav_sublist v _) (travObj_sublist tl path)

/-- Element-wise sublist property for sequences. -/
theorem travArr_sublist : ∀ (xs : List J) (i : Nat) (path : String),
    (travHashesArr xs i path).Sublist (allHashesArr xs)
  | [], _, _ => List.Sublist.refl _
  | x :: tl, i, path =>
    List.Sublist.append (trav_sublist x _) (travArr_sublist tl (i + 1) path)
end

/-- Unfolding of the traversal fingerprints of a mapping. -/
theorem trav_obj_eq (kvs : List (String × J)) (path : String) :
    travHashes (.obj kvs) path = compute_hash (.obj kvs) :: travHashesObj kvs path := rfl

/-- Unfolding of the traversal fingerprints of a sequence. -/
theorem trav_arr_eq (xs : List J) (path : String) :
    travHashes (.arr xs) path = compute_hash (.arr xs) :: travHashesArr xs 0 path := rfl

/-- Unfolding of the entry traversal fingerprints. -/
theorem travObj_cons_eq (k : String) (v : J) (tl : List (String × J)) (path : String) :
    travHashesObj ((k, v) :: tl) path =
      (if path = "" ∧ k ∈ allowKeys then [] else travHashes v (childPath path k)) ++
        travHashesObj tl path := rfl

/-- Unfolding of the element traversal fingerprints. -/
theorem travArr_cons_eq (x : J) (tl : List J) (i : Nat) (path : String) :
    travHashesArr (x :: tl) i path =
      travHashes x (path ++ "[" ++ toString i ++ "]") ++ travHashesArr tl (i + 1) path := rfl

mutual
/-- When the traversal fingerprints of a value are pairwise distinct and all
absent from the cache, a successful collapse returns the value unchanged and
appends exactly those fingerprints to the cache. -/
theorem car_distinct (v : J) (path : String) (c : Cache) (r : J) (c2 : Cache)
    (hnd : (travHashes v path).Nodup)
    (hdisj : ∀ h ∈ travHashes v path, h ∉ cacheKeys c)
    (hc : cache_and_replace true v path c = .ok (r, c2)) :
    r = v ∧ cacheKeys c2 = cacheKeys c ++ travHashes v path := by
  cases v with
  | null => cases hc; exact ⟨rfl, by simp [travHashes]⟩
  | bool b => cases hc; exact ⟨rfl, by simp [travHashes]⟩
  | num n => cases hc; exact ⟨rfl, by simp [travHashes]⟩
  | str s => cases hc; exact ⟨rfl, by simp [travHashes]⟩
  | obj kvs =>
    rw [car_obj_eq] at hc
    have hmem0 : compute_hash (.obj kvs) ∈ travHashes (.obj kvs) path := by
      rw [trav_obj_eq]; exact List.mem_cons_self _ _
    split at hc
    · rename_i p hp
      exact absurd (cacheGet_some_mem hp) (hdisj _ hmem0)
    · split at hc
      · cases hc
      · rename_i p hp
        split at hc
        · cases hc
        · rename_i res c2x hrec
          cases hc
          rw [trav_obj_eq] at hnd hdisj
          have hnotin : compute_hash (.obj kvs) ∉ travHashesObj kvs path := (List.nodup_cons.mp hnd).1
          have hnd2 : (travHashesObj kvs path).Nodup := (List.nodup_cons.mp hnd).2
          have hdisj2 : ∀ h ∈ travHashesObj kvs path,
              h ∉ cacheKeys (c ++ [(compute_hash (.obj kvs), p)]) := by
            intro h hh
            rw [cacheKeys_append]
            simp only [List.mem_append]
            rintro (hin | hin)
            · exact hdisj h (List.mem_cons_of_mem _ hh) hin
            · simp only [cacheKeys, List.map_cons, List.map_nil, List.mem_singleton] at hin
              exact hnotin (hin ▸ hh)
          obtain ⟨hres, hkeys⟩ := carObj_distinct kvs path _ res c2 hnd2 hdisj2 hrec
          refine ⟨by rw [hres], ?_⟩
          rw [hkeys, cacheKeys_append, trav_obj_eq]
          simp [cacheKeys, List.append_assoc]
  | arr xs =>
    rw [car_arr_eq] at hc
    have hmem0 : compute_hash (.arr xs) ∈ travHashes (.arr xs) path := by
      rw [trav_arr_eq]; exact List.mem_cons_self _ _
    split at hc
    · rename_i p hp
      exact absurd (cacheGet_some_mem hp) (hdisj _ hmem0)
    · split at hc
      · cases hc
      · rename_i p hp
        split at hc
        · cases hc
        · rename_i res c2x hrec
          cases hc
          rw [trav_arr_eq] at hnd hdisj
          have hnotin : compute_hash (.arr xs) ∉ travHashesArr xs 0 path := (List.nodup_cons.mp hnd).1
          have hnd2 : (travHashesArr xs 0 path).Nodup := (List.nodup_cons.mp hnd).2
          have hdisj2 : ∀ h ∈ travHashesArr xs 0 path,
              h ∉ cacheKeys (c ++ [(compute_hash (.arr xs), p)]) := by
            intro h hh
            rw [cacheKeys_append]
            simp only [List.mem_append]
            rintro (hin | hin)
            · exact hdisj h (List.mem_cons_of_mem _ hh) hin
            · simp only [cacheKeys, List.map_cons, List.map_nil, List.mem_singleton] at hin
              exact hnotin (hin ▸ hh)
          obtain ⟨hres, hkeys⟩ := carArr_distinct xs 0 path _ res c2 hnd2 hdisj2 hrec
          refine ⟨by rw [hres], ?_⟩
          rw [hkeys, cacheKeys_append, trav_arr_eq]
          simp [cacheKeys, List.append_assoc]

/-- Entry loop version of `car_distinct`. -/
theorem carObj_distinct (kvs : List (String × J)) (path : String) (c : Cache)
    (res : List (String × J)) (c2 : Cache)
    (hnd : (travHashesObj kvs path).Nodup)
    (hdisj : ∀ h ∈ travHashesObj kvs path, h ∉ cacheKeys c)
    (hc : cacheAndReplaceObj true kvs path c = .ok (res, c2)) :
    res = kvs ∧ cacheKeys c2 = cacheKeys c ++ travHashesObj kvs path := by
  cases kvs with
  | nil => cases hc; exact ⟨rfl, by simp [travHashesObj]⟩
  | cons hd tl =>
    obtain ⟨k, w⟩ := hd
    rw [carObj_cons_eq] at hc
    rw [travObj_cons_eq] at hnd hdisj ⊢
    split at hc
    · rename_i hcond
      rw [if_pos hcond] at hnd hdisj ⊢
      simp only [List.nil_append] at hnd hdisj ⊢
      split at hc
      · cases hc
      · rename_i res2 c2x hrec
        cases hc
        obtain ⟨hres, hkeys⟩ := carObj_distinct tl path c res2 c2 hnd hdisj hrec
        exact ⟨by rw [hres], hkeys⟩
    · rename_i hcond
      rw [if_neg hcond] at hnd hdisj ⊢
      split at hc
      · cases hc
      · rename_i rw2 c1 hv
        split at hc
        · cases hc
        · rename_i res2 c2x hrec
          cases hc
          rw [List.nodup_append] at hnd
          obtain ⟨hndw, hndtl, hdisjwt⟩ := hnd
          have hdisjw : ∀ h ∈ travHashes w (childPath path k), h ∉ cacheKeys c :=
            fun h hh => hdisj h (List.mem_append_left _ hh)
          obtain ⟨hrw, hkeys1⟩ := car_distinct w (childPath path k) c rw2 c1 hndw hdisjw hv
          have hdisjtl : ∀ h ∈ travHashesObj tl path, h ∉ cacheKeys c1 := by
            intro h hh
            rw [hkeys1, List.mem_append]
            rintro (hin | hin)
            · exact hdisj h (List.mem_append_right _ hh) hin
            · exact hdisjwt hin hh
          obtain ⟨hres, hkeys2⟩ := carObj_distinct tl path c1 res2 c2 hndtl hdisjtl hrec
          refine ⟨by rw [hrw, hres], ?_⟩
          rw [hkeys2, hkeys1, List.append_assoc]

/-- Element loop version of `car_distinct`. -/
theorem carArr_distinct (xs : List J) (i : Nat) (path : String) (c : Cache)
    (res : List J) (c2 : Cache)
    (hnd : (travHashesArr xs i path).Nodup)
    (hdisj : ∀ h ∈ travHashesArr xs i path, h ∉ cacheKeys c)
    (hc : cacheAndReplaceArr true xs i path c = .ok (res, c2)) :
    res = xs ∧ cacheKeys c2 = cacheKeys c ++ travHashesArr xs i path := by
  cases xs with
  | nil => cases hc; exact ⟨rfl, by simp [travHashesArr]⟩
  | cons x tl =>
    rw [carArr_cons_eq] at hc
    rw [travArr_cons_eq] at hnd hdisj ⊢
    split at hc
    · cases hc
    · rename_i rx c1 hx
      split at hc
      · cases hc
      · rename_i res2 c2x hrec
        cases hc
        rw [List.nodup_append] at hnd
        obtain ⟨hndx, hndtl, hdisjxt⟩ := hnd
        have hdisjx : ∀ h ∈ travHashes x (path ++ "[" ++ toString i ++ "]"), h ∉ cacheKeys c :=
          fun h hh => hdisj h (List.mem_append_left _ hh)
        obtain ⟨hrx, hkeys1⟩ := car_distinct x (path ++ "[" ++ toString i ++ "]") c rx c1 hndx hdisjx hx
        have hdisjtl : ∀ h ∈ travHashesArr tl (i + 1) path, h ∉ cacheKeys c1 := by
          intro h hh
          rw [hkeys1, List.mem_append]
          rintro (hin | hin)
          · exact hdisj h (List.mem_append_right _ hh) hin
          · exact hdisjxt hin hh
        obtain ⟨hres, hkeys2⟩ := carArr_distinct tl (i + 1) path c1 res2 c2 hndtl hdisjtl hrec
        refine ⟨by rw [hrx, hres], ?_⟩
        rw [hkeys2, hkeys1, List.append_assoc]
end

/-- C5 (amended: assuming the collapse returns normally, i.e. no preview
`TypeError`).  For a JSON document none of whose composite substructures are
equal (pairwise distinct fingerprints — fingerprint equality is exactly
Python value equality for JSON data), a successful collapse from the empty
cache returns the document itself: same keys in the same order, same leaf
values, no subtree replaced by a back-reference. -/
theorem claim_C5 (v : J) (r : J) (c2 : Cache)
    (hnd : (allHashes v).Nodup)
    (hc : cache_and_replace true v "" [] = .ok (r, c2)) :
    r = v := by
  have hndt : (travHashes v "").Nodup := hnd.sublist (trav_sublist v "")
  exact (car_distinct v "" [] r c2 hndt (by simp [cacheKeys]) hc).1

/-- C5 (refutation of the claim as stated): the document
`{"a": {"type": "x", "text": true}}` has no two equal composite
substructures, yet collapsing it from the empty cache raises `TypeError`
(via `create_preview` on the inner mapping, see C10) instead of returning
the document. -/
theorem claim_C5_counterexample :
    (allHashes (J.obj [("a", J.obj [("type", J.str "x"), ("text", J.bool true)])])).Nodup ∧
    cache_and_replace true (J.obj [("a", J.obj [("type", J.str "x"), ("text", J.bool true)])]) "" [] =
      .error () :=
  ⟨by decide, rfl⟩

set_option maxRecDepth 100000 in
/-- Witness for C5 at the concrete document `{"a": 1, "b": [2]}`. -/
theorem claim_C5_witness :
    (J.obj [("a", J.num 1), ("b", J.arr [J.num 2])] : J) =
      J.obj [("a", J.num 1), ("b", J.arr [J.num 2])] :=
  claim_C5 (J.obj [("a", J.num 1), ("b", J.arr [J.num 2])])
    (J.obj [("a", J.num 1), ("b", J.arr [J.num 2])])
    [("\x7b\"a\": 1, \"b\": [2]\x7d", "dict with keys: a, b"), ("[2]", "array with 1 items")]
    (by decide) rfl
